import Mathlib

/-!
Verification of the conversion engine of the float-export browser extension
(`lib/formatter.js`).  The engine transforms a loosely-typed captured
conversation object into flat markdown and an outliner-style text format.

Modelling conventions (shallow embedding of the JavaScript source):
* JavaScript values reaching the engine originate from `JSON.parse` of a
  captured API response, so they are modelled by the inductive type `JVal`
  (null, booleans, numbers, strings, arrays, objects).  JSON numbers are
  modelled as integers; no claim depends on fractional values.
* The JavaScript value `undefined` arises only from property accesses and
  from `JSON.stringify undefined`; it is modelled by `Option` at those
  points (`none` = undefined).
* A thrown JavaScript exception (`TypeError` from a property access on
  `null`, from calling a missing method, and so on) is modelled by
  `Except.error ()`; `try`/`catch` in the source is modelled by matching
  on that `Except`.
* `new Date().toISOString()` is impure; the formatters take the timestamp
  as an explicit `now : String` parameter.
* String lengths and slices count Unicode code points (JavaScript counts
  UTF-16 code units); every claim only involves characters where the two
  agree.
-/

namespace FloatExport

/-! ## JavaScript value model -/

mutual
inductive JVal : Type where
  | null : JVal
  | bool : Bool → JVal
  | num : Int → JVal
  | str : String → JVal
  | arr : JArr → JVal
  | obj : JObj → JVal
inductive JArr : Type where
  | nil : JArr
  | cons : JVal → JArr → JArr
inductive JObj : Type where
  | nil : JObj
  | cons : String → JVal → JObj → JObj
end

def JArr.ofList : List JVal → JArr
  | [] => .nil
  | v :: tl => .cons v (JArr.ofList tl)

def JArr.toList : JArr → List JVal
  | .nil => []
  | .cons v tl => v :: JArr.toList tl

def JArr.length : JArr → Nat
  | .nil => 0
  | .cons _ tl => 1 + JArr.length tl

def JArr.take : Nat → JArr → JArr
  | 0, _ => .nil
  | _, .nil => .nil
  | n + 1, .cons v tl => .cons v (JArr.take n tl)

def JObj.ofList : List (String × JVal) → JObj
  | [] => .nil
  | (k, v) :: tl => .cons k v (JObj.ofList tl)

def JObj.toList : JObj → List (String × JVal)
  | .nil => []
  | .cons k v tl => (k, v) :: JObj.toList tl

/-- `parsed[key]` for a plain object: first binding wins (the parser below
keeps keys unique, matching JavaScript object semantics). -/
def lookupO : JObj → String → Option JVal
  | .nil, _ => none
  | .cons k v tl, key => if k == key then some v else lookupO tl key

def hasKeyO (fs : JObj) (k : String) : Bool := (lookupO fs k).isSome

/-- `Object.keys(parsed).length`. -/
def numKeysO : JObj → Nat
  | .nil => 0
  | .cons _ _ tl => 1 + numKeysO tl

/-- JavaScript exceptions: `error ()` models a thrown `TypeError`. -/
abbrev JsE (α : Type) : Type := Except Unit α

/-! ## Character and string helpers (JavaScript semantics) -/

/-- The character class trimmed by JavaScript `String.prototype.trim`. -/
def jsWsChar (c : Char) : Bool :=
  ("\t\n\x0b\x0c\r                  　﻿").data.contains c

/-- JavaScript `s.trim()`. -/
def jsTrim (s : String) : String :=
  String.mk (((s.data.dropWhile jsWsChar).reverse.dropWhile jsWsChar).reverse)

/-- JavaScript `s.split("\n")`. -/
def jsSplitNl (s : String) : List String :=
  let rec go : List Char → List Char → List String
    | [], acc => [String.mk acc.reverse]
    | c :: cs, acc =>
      if c = '\n' then String.mk acc.reverse :: go cs [] else go cs (c :: acc)
  go s.data []

/-- JavaScript `parts.join(sep)` for parts that are already strings. -/
def joinStr (sep : String) : List String → String
  | [] => ""
  | [x] => x
  | x :: xs => x ++ sep ++ joinStr sep xs

/-- JavaScript `s.slice(0, n)` for a string. -/
def takeChars (n : Nat) (s : String) : String := String.mk (s.data.take n)

def hasNl (s : String) : Bool := s.data.contains '\n'

def startsWithChar (s : String) (c : Char) : Bool :=
  match s.data with
  | [] => false
  | d :: _ => d = c

def headD (l : List String) : String :=
  match l with
  | [] => ""
  | x :: _ => x

/-- `"  ".repeat(n)` — two spaces per indent level. -/
def pad (n : Nat) : String := String.mk (List.replicate (2 * n) ' ')

def intStr : Int → String
  | .ofNat n => Nat.repr n
  | .negSucc n => "-" ++ Nat.repr (n + 1)

/-! ## JSON string quoting and `JSON.stringify` -/

def hexDigit (n : Nat) : Char :=
  if n < 10 then Char.ofNat (48 + n) else Char.ofNat (87 + n)

/-- Escape sequence `JSON.stringify` emits for one character. -/
def escSeq (c : Char) : List Char :=
  if c = '"' then ['\\', '"']
  else if c = '\\' then ['\\', '\\']
  else if c = '\x08' then ['\\', 'b']
  else if c = '\t' then ['\\', 't']
  else if c = '\n' then ['\\', 'n']
  else if c = '\x0c' then ['\\', 'f']
  else if c = '\r' then ['\\', 'r']
  else if c.toNat < 32 then
    ['\\', 'u', '0', '0', hexDigit (c.toNat / 16), hexDigit (c.toNat % 16)]
  else [c]

def escChars : List Char → List Char
  | [] => []
  | c :: cs => escSeq c ++ escChars cs

/-- `JSON.stringify` applied to a string. -/
def jsonQuote (s : String) : String := "\"" ++ String.mk (escChars s.data) ++ "\""

mutual
/-- Compact `JSON.stringify(v)`. -/
def stringifyC : JVal → String
  | .null => "null"
  | .bool b => if b then "true" else "false"
  | .num n => intStr n
  | .str s => jsonQuote s
  | .arr xs => "[" ++ stringifyCArr xs ++ "]"
  | .obj fs => "\x7b" ++ stringifyCObj fs ++ "\x7d"
def stringifyCArr : JArr → String
  | .nil => ""
  | .cons v .nil => stringifyC v
  | .cons v tl => stringifyC v ++ "," ++ stringifyCArr tl
def stringifyCObj : JObj → String
  | .nil => ""
  | .cons k v .nil => jsonQuote k ++ ":" ++ stringifyC v
  | .cons k v tl => jsonQuote k ++ ":" ++ stringifyC v ++ "," ++ stringifyCObj tl
end

mutual
/-- Pretty `JSON.stringify(v, null, 2)` at nesting level `i`. -/
def stringifyP : JVal → Nat → String
  | .null, _ => "null"
  | .bool b, _ => if b then "true" else "false"
  | .num n, _ => intStr n
  | .str s, _ => jsonQuote s
  | .arr .nil, _ => "[]"
  | .arr xs, i => "[\n" ++ stringifyPArr xs (i + 1) ++ "\n" ++ pad i ++ "]"
  | .obj .nil, _ => "\x7b\x7d"
  | .obj fs, i => "\x7b\n" ++ stringifyPObj fs (i + 1) ++ "\n" ++ pad i ++ "\x7d"
def stringifyPArr : JArr → Nat → String
  | .nil, _ => ""
  | .cons v .nil, i => pad i ++ stringifyP v i
  | .cons v tl, i => pad i ++ stringifyP v i ++ ",\n" ++ stringifyPArr tl i
def stringifyPObj : JObj → Nat → String
  | .nil, _ => ""
  | .cons k v .nil, i => pad i ++ jsonQuote k ++ ": " ++ stringifyP v i
  | .cons k v tl, i =>
    pad i ++ jsonQuote k ++ ": " ++ stringifyP v i ++ ",\n" ++ stringifyPObj tl i
end

/-! ## JavaScript `String(v)` conversion -/

mutual
def jsToString : JVal → String
  | .null => "null"
  | .bool b => if b then "true" else "false"
  | .num n => intStr n
  | .str s => s
  | .arr xs => joinParts xs
  | .obj _ => "[object Object]"
/-- `Array.prototype.toString` = `join(",")`; `null` elements become `""`. -/
def joinParts : JArr → String
  | .nil => ""
  | .cons .null .nil => ""
  | .cons v .nil => jsToString v
  | .cons .null tl => "," ++ joinParts tl
  | .cons v tl => jsToString v ++ "," ++ joinParts tl
end

/-- Template interpolation of a possibly-undefined value. -/
def jsToStringU : Option JVal → String
  | none => "undefined"
  | some v => jsToString v

/-! ## Truthiness and property access -/

def jsTruthy : JVal → Bool
  | .null => false
  | .bool b => b
  | .num n => !(n == 0)
  | .str s => !(s == "")
  | .arr _ => true
  | .obj _ => true

def jsTruthyOpt : Option JVal → Bool
  | none => false
  | some v => jsTruthy v

/-- `x || dflt` where `x` is the result of a property access. -/
def jOrO (x : Option JVal) (dflt : JVal) : JVal :=
  match x with
  | some v => if jsTruthy v then v else dflt
  | none => dflt

/-- `a || b` on values. -/
def jOrV (a b : JVal) : JVal := if jsTruthy a then a else b

/-- Property access `v.k`: throws on `null`, `undefined` on primitives. -/
def propGet (v : JVal) (k : String) : JsE (Option JVal) :=
  match v with
  | .null => .error ()
  | .obj fs => .ok (lookupO fs k)
  | _ => .ok none

/-- Total property access, for receivers that cannot be `null` at the
call site (or that sit behind optional chaining). -/
def getTot (v : JVal) (k : String) : Option JVal :=
  match v with
  | .obj fs => lookupO fs k
  | _ => none

/-- Strict comparison `v === "lit"`. -/
def strictEqStr (v : JVal) (lit : String) : Bool :=
  match v with
  | .str s => s == lit
  | _ => false

/-- The `.length` property of a value. -/
def lenOf : JVal → Option JVal
  | .str s => some (.num s.length)
  | .arr xs => some (.num (JArr.length xs))
  | .obj fs => lookupO fs "length"
  | _ => none

/-- `for (const x of v)`: arrays and strings iterate, all else throws. -/
def iterOf : JVal → JsE (List JVal)
  | .arr xs => .ok (JArr.toList xs)
  | .str s => .ok (s.data.map (fun c => .str (String.mk [c])))
  | _ => .error ()

/-- `v.trim()` on a value: only strings have `trim`. -/
def asStringOrThrow : JVal → JsE String
  | .str s => .ok s
  | _ => .error ()

/-! ## JSON parser (`JSON.parse`)

JSON whitespace is space, tab, newline, carriage return.  Numbers are
restricted to (optionally signed) integer literals; see the header note. -/

def isJsonWs (c : Char) : Bool := c = ' ' || c = '\t' || c = '\n' || c = '\r'

def skipWs : List Char → List Char
  | [] => []
  | c :: cs => if isJsonWs c then skipWs cs else c :: cs

def hexVal (c : Char) : Option Nat :=
  if '0' ≤ c ∧ c ≤ '9' then some (c.toNat - 48)
  else if 'a' ≤ c ∧ c ≤ 'f' then some (c.toNat - 87)
  else if 'A' ≤ c ∧ c ≤ 'F' then some (c.toNat - 55)
  else none

def escDecode (c : Char) : Option Char :=
  if c = '"' then some '"'
  else if c = '\\' then some '\\'
  else if c = '/' then some '/'
  else if c = 'b' then some '\x08'
  else if c = 'f' then some '\x0c'
  else if c = 'n' then some '\n'
  else if c = 'r' then some '\r'
  else if c = 't' then some '\t'
  else none

/-- Body of a JSON string (after the opening quote). -/
def strBody : List Char → Option (List Char × List Char)
  | [] => none
  | '"' :: rest => some ([], rest)
  | '\\' :: 'u' :: h1 :: h2 :: h3 :: h4 :: rest =>
    (match hexVal h1, hexVal h2, hexVal h3, hexVal h4 with
     | some a, some b, some c, some d =>
       (strBody rest).map (fun p => (Char.ofNat (((a * 16 + b) * 16 + c) * 16 + d) :: p.1, p.2))
     | _, _, _, _ => none)
  | '\\' :: e :: rest =>
    (match escDecode e with
     | some ch => (strBody rest).map (fun p => (ch :: p.1, p.2))
     | none => none)
  | c :: rest =>
    if c.toNat < 32 then none
    else (strBody rest).map (fun p => (c :: p.1, p.2))

def digitsLoop : List Char → Nat → Nat × List Char
  | [], acc => (acc, [])
  | c :: cs, acc =>
    if c.isDigit then digitsLoop cs (acc * 10 + (c.toNat - 48)) else (acc, c :: cs)

def parseNumTail : List Char → Option (Nat × List Char)
  | [] => none
  | c :: rest =>
    if c = '0' then
      match rest with
      | d :: _ => if d.isDigit then none else some (0, rest)
      | [] => some (0, [])
    else if c.isDigit then some (digitsLoop rest (c.toNat - 48))
    else none

def parseNum (cs : List Char) (neg : Bool) : Option (JVal × List Char) :=
  (parseNumTail cs).bind fun p =>
    match p.2 with
    | c :: _ =>
      if c = '.' || c = 'e' || c = 'E' then none
      else some (.num (if neg then -(p.1 : Int) else (p.1 : Int)), p.2)
    | [] => some (.num (if neg then -(p.1 : Int) else (p.1 : Int)), [])

def lookupLastO : JObj → String → Option JVal
  | .nil, _ => none
  | .cons k v tl, key =>
    match lookupLastO tl key with
    | some w => some w
    | none => if k == key then some v else none

def removeKeyAll : JObj → String → JObj
  | .nil, _ => .nil
  | .cons k v tl, key =>
    if k == key then removeKeyAll tl key else .cons k v (removeKeyAll tl key)

/-- Duplicate keys: last value wins, first position is kept. -/
def objInsert (k : String) (v : JVal) (tl : JObj) : JObj :=
  match lookupLastO tl k with
  | some w => .cons k w (removeKeyAll tl k)
  | none => .cons k v tl

mutual
def parseVal : Nat → List Char → Option (JVal × List Char)
  | 0, _ => none
  | fuel + 1, cs0 =>
    match skipWs cs0 with
    | [] => none
    | c :: rest =>
      if c = '\x7b' then
        match skipWs rest with
        | '\x7d' :: r2 => some (.obj .nil, r2)
        | cs2 => (parseObjFields fuel cs2).map (fun p => (.obj p.1, p.2))
      else if c = '[' then
        match skipWs rest with
        | ']' :: r2 => some (.arr .nil, r2)
        | cs2 => (parseArrItems fuel cs2).map (fun p => (.arr p.1, p.2))
      else if c = '"' then
        (strBody rest).map (fun p => (.str (String.mk p.1), p.2))
      else if c = 't' then
        match rest with
        | 'r' :: 'u' :: 'e' :: r => some (.bool true, r)
        | _ => none
      else if c = 'f' then
        match rest with
        | 'a' :: 'l' :: 's' :: 'e' :: r => some (.bool false, r)
        | _ => none
      else if c = 'n' then
        match rest with
        | 'u' :: 'l' :: 'l' :: r => some (.null, r)
        | _ => none
      else if c = '-' then parseNum rest true
      else if c.isDigit then parseNum (c :: rest) false
      else none
def parseArrItems : Nat → List Char → Option (JArr × List Char)
  | 0, _ => none
  | fuel + 1, cs =>
    (parseVal fuel cs).bind fun p =>
      match skipWs p.2 with
      | ',' :: r => (parseArrItems fuel r).map (fun q => (.cons p.1 q.1, q.2))
      | ']' :: r => some (.cons p.1 .nil, r)
      | _ => none
def parseObjFields : Nat → List Char → Option (JObj × List Char)
  | 0, _ => none
  | fuel + 1, cs =>
    match skipWs cs with
    | '"' :: r =>
      (strBody r).bind fun kp =>
        match skipWs kp.2 with
        | ':' :: r2 =>
          (parseVal fuel r2).bind fun vp =>
            match skipWs vp.2 with
            | ',' :: r3 =>
              (parseObjFields fuel r3).map
                (fun q => (objInsert (String.mk kp.1) vp.1 q.1, q.2))
            | '\x7d' :: r3 => some (.cons (String.mk kp.1) vp.1 .nil, r3)
            | _ => none
        | _ => none
    | _ => none
end

/-- `JSON.parse`: `none` models a thrown `SyntaxError`.  The fuel is
sufficient because at least one input character is consumed for every two
levels of recursion. -/
def jsonParse (s : String) : Option JVal :=
  match parseVal (2 * s.length + 2) s.data with
  | some (v, rest) =>
    match skipWs rest with
    | [] => some v
    | _ => none
  | none => none

/-! ## Truncation limits (`LIMITS` in formatter.js) -/

structure Limits : Type where
  toolUseMeta : Nat
  toolUseContent : Nat
  toolResult : Nat
  thinking : Nat

/-- A limit of 0 means no truncation. -/
def LIMITS : Limits := ⟨2000, 0, 0, 0⟩

/-- `truncate(str, max)`: identity on empty strings, zero limits, and
strings within the limit; otherwise the first `max` characters followed by
the marker. -/
def truncate (str : String) (max : Nat) : String :=
  if str = "" || max == 0 || str.length ≤ max then str
  else takeChars max str ++ "\n... (truncated)"

/-! ## Structured-data renderer (`jsonToYaml`)

The renderer can throw: an array whose block-style rendering meets an
element that is an empty object evaluates `entries[0][0]` with
`entries[0]` undefined (a `TypeError`). -/

/-- `obj.every((v) => typeof v !== "object" || v === null)`. -/
def allScalarArr : JArr → Bool
  | .nil => true
  | .cons v tl =>
    (match v with
     | .arr _ => false
     | .obj _ => false
     | _ => true) && allScalarArr tl

/-- Inline-array element: strings requoted, the rest via `String(v)`. -/
def inlineElems : JArr → List String
  | .nil => []
  | .cons v tl =>
    (match v with
     | .str s => jsonQuote s
     | w => jsToString w) :: inlineElems tl

def specialYamlChars : List Char := (":#\x7b\x7d[],&*?|>!%@`").data

def hasSpecialChar (s : String) : Bool :=
  s.data.any (fun c => specialYamlChars.contains c)

mutual
def jsonToYaml : JVal → Nat → JsE String
  | .null, _ => .ok "null"
  | .bool b, _ => .ok (if b then "true" else "false")
  | .num n, _ => .ok (intStr n)
  | .str s, i =>
    if hasNl s then
      .ok ("|\n" ++ joinStr "\n" ((jsSplitNl s).map (fun l => pad i ++ "  " ++ l)))
    else if hasSpecialChar s || s == "" || !(s == jsTrim s) then .ok (jsonQuote s)
    else .ok s
  | .arr .nil, _ => .ok "[]"
  | .arr xs, i =>
    if allScalarArr xs && decide ((stringifyC (.arr xs)).length < 80) then
      .ok ("[" ++ joinStr ", " (inlineElems xs) ++ "]")
    else
      (yamlArrItems xs i).map (fun items => joinStr "\n" items)
  | .obj .nil, _ => .ok "\x7b\x7d"
  | .obj fs, i =>
    (yamlObjEntries fs i).map (fun ls => joinStr "\n" ls)
def yamlArrItems : JArr → Nat → JsE (List String)
  | .nil, _ => .ok []
  | .cons item tl, i =>
    (match item with
     | .obj .nil => Except.error ()
     | .obj (.cons k v rest) =>
       (jsonToYaml v (i + 2)).bind fun s1 =>
         (yamlItemRest rest i).map fun restStr =>
           pad i ++ "- " ++ k ++ ": " ++ s1 ++ restStr
     | w =>
       (jsonToYaml w (i + 1)).map fun s => pad i ++ "- " ++ s).bind
      fun line => (yamlArrItems tl i).map fun ls => line :: ls
def yamlItemRest : JObj → Nat → JsE String
  | .nil, _ => .ok ""
  | .cons k v tl, i =>
    (jsonToYaml v (i + 2)).bind fun s =>
      (yamlItemRest tl i).map fun restStr =>
        "\n" ++ pad i ++ "  " ++ k ++ ": " ++ s ++ restStr
def yamlObjEntries : JObj → Nat → JsE (List String)
  | .nil, _ => .ok []
  | .cons k v tl, i =>
    (jsonToYaml v (i + 1)).bind fun yv =>
      (yamlObjEntries tl i).map fun ls =>
        (match v with
         | .obj _ => pad i ++ k ++ ":\n" ++ yv
         | _ => pad i ++ k ++ ": " ++ yv) :: ls
end

/-! ## Tool-output unwrapper (`unwrapToolOutput`) -/

def singleKeys : List String :=
  ["output", "result", "text", "content", "message", "data"]

/-- `x?.trim()` on a property-access result: `undefined`/`null` give
`undefined`, strings trim, anything else throws (`trim` is not a
function). -/
def jsOptTrim : Option JVal → JsE (Option String)
  | none => .ok none
  | some .null => .ok none
  | some (.str s) => .ok (some (jsTrim s))
  | some _ => .error ()

/-- The `parts` array built from trimmed stdout and stderr. -/
def trimParts (so se : Option String) : List String :=
  (match so with
   | some t => if t = "" then [] else [t]
   | none => []) ++
  (match se with
   | some t => if t = "" then [] else ["**stderr:**\n" ++ t]
   | none => [])

/-- `parsed.returncode !== 0` is false exactly for the number 0. -/
def rcIsZero : Option JVal → Bool
  | some (.num n) => n == 0
  | _ => false

def exitAnnot (rcv : Option JVal) : String :=
  if rcIsZero rcv then "" else " (exit " ++ jsToStringU rcv ++ ")"

/-- The `for (const key of singleKeys)` loop: first listed key holding a
string, provided the object has at most 3 keys, else keep looking. -/
def findSingleKeyLoop (fs : JObj) : List String → Option String
  | [] => none
  | k :: ks =>
    match lookupO fs k with
    | some (.str v) =>
      if numKeysO fs ≤ 3 then some v else findSingleKeyLoop fs ks
    | _ => findSingleKeyLoop fs ks

/-- Body of the `try` block of `unwrapToolOutput` after a successful
parse; `.ok none` means "fall through to `return body`". -/
def unwrapParsed (parsed : JVal) : JsE (Option String) :=
  match parsed with
  | .obj fs =>
    if hasKeyO fs "stdout" && hasKeyO fs "returncode" then
      (jsOptTrim (lookupO fs "stdout")).bind fun so =>
        (jsOptTrim (lookupO fs "stderr")).bind fun se =>
          let parts := trimParts so se
          if parts.isEmpty then .ok (findSingleKeyLoop fs singleKeys)
          else
            let rc := exitAnnot (lookupO fs "returncode")
            .ok (some (joinStr "\n\n" parts ++
              (if rc = "" then "" else "\n\n_" ++ rc ++ "_")))
    else .ok (findSingleKeyLoop fs singleKeys)
  | _ => .error ()

/-- `unwrapToolOutput(body)`: total — every exception raised inside the
`try` block (including `JSON.parse` failures and `TypeError`s from
non-string `stdout` fields) is caught and yields the original string. -/
def unwrapToolOutput (body : String) : String :=
  let trimmed := jsTrim body
  if !(startsWithChar trimmed '\x7b') then body
  else
    match jsonParse trimmed with
    | none => body
    | some parsed =>
      match unwrapParsed parsed with
      | .ok (some r) => r
      | .ok none => body
      | .error _ => body

/-! ## Flat-markdown block formatter -/

/-- Allow-list of content-bearing tool-input field names. -/
def RICH_CONTENT_FIELDS : List String :=
  ["content", "new_str", "old_str", "text", "body", "description",
   "message", "prompt", "code", "script", "markdown", "html",
   "new_string", "old_string", "file_text"]

/-- A tool-input field is rich iff its name is allow-listed and its value
is a string containing a newline. -/
def isRich (key : String) (val : JVal) : Bool :=
  RICH_CONTENT_FIELDS.contains key &&
    (match val with
     | .str s => hasNl s
     | _ => false)

/-- `Object.entries(v)`: objects give their fields, arrays indexed
entries, strings indexed characters, primitives nothing. -/
def entriesOf (v : JVal) : List (String × JVal) :=
  match v with
  | .obj fs => JObj.toList fs
  | .arr xs =>
    ((JArr.toList xs).enum).map (fun p => (Nat.repr p.1, p.2))
  | .str s => (s.data.enum).map (fun p => (Nat.repr p.1, .str (String.mk [p.2])))
  | _ => []

def formatToolUse (block : JVal) : JsE String :=
  (propGet block "name").bind fun nameP =>
    (propGet block "input").map fun inputP =>
      let nameV := jOrO nameP (.str "unknown_tool")
      let inputV := jOrO inputP (.obj .nil)
      let entries := entriesOf inputV
      let richFields := entries.filter (fun kv => isRich kv.1 kv.2)
      let metaFields := entries.filter (fun kv => !(isRich kv.1 kv.2))
      let metaLines :=
        if metaFields.isEmpty then []
        else ["```json\n" ++
          truncate (stringifyP (.obj (JObj.ofList metaFields)) 0) LIMITS.toolUseMeta ++
          "\n```"]
      let richLines :=
        (richFields.map (fun kv =>
          ["", "**" ++ kv.1 ++ ":**", "", truncate (jsToString kv.2) LIMITS.toolUseContent])).flatten
      joinStr "\n"
        ((["### Tool Use: `" ++ jsToString nameV ++ "`", ""] ++ metaLines) ++ richLines)

/-- One element of a `tool_result` content array, flat vocabulary. -/
def toolResultBodyItem (c : JVal) : JsE String :=
  match c with
  | .str s => .ok s
  | .null => .error ()
  | .obj fs =>
    (match lookupO fs "type" with
      | some (.str "text") => .ok (jsToString (jOrO (lookupO fs "text") (.str "")))
      | some (.str "image") =>
        let srcTy :=
          match lookupO fs "source" with
          | none => .str "embedded"
          | some .null => .str "embedded"
          | some sv => jOrO (getTot sv "type") (.str "embedded")
        .ok ("[image: " ++ jsToString srcTy ++ "]")
      | _ => .ok (stringifyP (.obj fs) 0))
  | v => .ok (stringifyP v 0)

def toolResultItemsLoop : JArr → JsE (List String)
  | .nil => .ok []
  | .cons c tl =>
    (toolResultBodyItem c).bind fun s =>
      (toolResultItemsLoop tl).map fun rest => s :: rest

/-- Normalisation of `block.content` to a string; `.ok none` models the
`undefined` produced by `JSON.stringify(undefined, null, 2)`. -/
def toolResultBody (content : Option JVal) : JsE (Option String) :=
  match content with
  | some (.str s) => .ok (some s)
  | some (.arr xs) =>
    (toolResultItemsLoop xs).map fun ls => some (joinStr "\n" ls)
  | some v => .ok (some (stringifyP v 0))
  | none => .ok none

/-- Classification of the unwrapped body (source lines 671-688). -/
def classifyToolResultBody (pfx : String) (isError : Bool) (body : String) : String :=
  let trimmed := jsTrim body
  let looksLikeJson := startsWithChar trimmed '\x7b' || startsWithChar trimmed '['
  let looksLikeCode := !(hasNl trimmed) && decide (trimmed.length < 200)
  if looksLikeJson then
    match jsonParse trimmed with
    | some parsed =>
      (match jsonToYaml parsed 0 with
       | .ok yaml =>
         "### " ++ pfx ++ "\n\n```yaml\n" ++ truncate yaml LIMITS.toolResult ++ "\n```"
       | .error _ =>
         "### " ++ pfx ++ "\n\n```json\n" ++ truncate body LIMITS.toolResult ++ "\n```")
    | none =>
      "### " ++ pfx ++ "\n\n```json\n" ++ truncate body LIMITS.toolResult ++ "\n```"
  else if looksLikeCode || isError then
    "### " ++ pfx ++ "\n\n```\n" ++ truncate body LIMITS.toolResult ++ "\n```"
  else
    "### " ++ pfx ++ "\n\n" ++ truncate body LIMITS.toolResult

def formatToolResult (block : JVal) : JsE String :=
  (propGet block "name").bind fun nameP =>
    (propGet block "is_error").bind fun errP =>
      (propGet block "content").bind fun contentP =>
        let name := if jsTruthyOpt nameP then " (" ++ jsToStringU nameP ++ ")" else ""
        let isError := jsTruthyOpt errP
        let pfx := if isError then "Tool Result" ++ name ++ " (ERROR)" else "Tool Result" ++ name
        (toolResultBody contentP).bind fun bodyO =>
          match bodyO with
          | some b => .ok (classifyToolResultBody pfx isError (unwrapToolOutput b))
          | none => .error ()

def summaryElem (s : JVal) : JsE JVal :=
  match s with
  | .null => .error ()
  | .obj fs => .ok (jOrO (lookupO fs "summary") s)
  | v => .ok v

def mapSummary : JArr → JsE (List String)
  | .nil => .ok []
  | .cons s tl =>
    (summaryElem s).bind fun v =>
      (mapSummary tl).map fun rest => jsToString v :: rest

/-- `block.summaries?.length ? block.summaries.map((s) => s.summary || s).join(" ") : <absent>`.
Non-empty strings and objects with a truthy `length` pass the check but
have no `.map`, which throws. -/
def summariesJoined (sv : Option JVal) : JsE (Option String) :=
  match sv with
  | none => .ok none
  | some .null => .ok none
  | some (.arr xs) =>
    if JArr.length xs == 0 then .ok none
    else (mapSummary xs).map fun strs => some (joinStr " " strs)
  | some (.str s) => if s.length == 0 then .ok none else .error ()
  | some (.obj fs) => if jsTruthyOpt (lookupO fs "length") then .error () else .ok none
  | some (.num _) => .ok none
  | some (.bool _) => .ok none

def formatThinking (block : JVal) : JsE (Option JVal) :=
  (propGet block "thinking").bind fun thinkP =>
    let textV := jOrO thinkP (.str "")
    if !(jsTruthy textV) then .ok none
    else
      (propGet block "summaries").bind fun sv =>
        (summariesJoined sv).bind fun sj =>
          let summary :=
            match sj with
            | some j => "\n\n**Summary:** " ++ j
            | none => ""
          (propGet block "cut_off").map fun cutP =>
            some (.str ("<details>\n<summary>Thinking" ++
              (if jsTruthyOpt cutP then " (truncated)" else "") ++
              "</summary>\n\n" ++ truncate (jsToString textV) LIMITS.thinking ++
              summary ++ "\n\n</details>"))

/-- `formatBlock`: `.ok none` models the JavaScript `null` return. -/
def formatBlock (block : JVal) : JsE (Option JVal) :=
  match block with
  | .str s => .ok (some (.str s))
  | _ =>
    (propGet block "type").bind fun tV =>
      match tV with
      | some (.str "text") =>
        (propGet block "text").map fun textP => some (jOrO textP (.str ""))
      | some (.str "tool_use") =>
        (formatToolUse block).map fun s => some (.str s)
      | some (.str "tool_result") =>
        (formatToolResult block).map fun s => some (.str s)
      | some (.str "thinking") => formatThinking block
      | some (.str "token_budget") => .ok none
      | _ =>
        .ok (some (.str ("<!-- unknown block type: " ++ jsToStringU tV ++
          " -->\n```json\n" ++ truncate (stringifyP block 0) 1000 ++ "\n```")))

/-! ## Flat-markdown message and conversation formatters -/

def blockLinesLoop : JArr → JsE (List String)
  | .nil => .ok []
  | .cons b tl =>
    (formatBlock b).bind fun fb =>
      (blockLinesLoop tl).map fun rest =>
        (match fb with
         | some v => if jsTruthy v then [jsToString v, ""] else []
         | none => []) ++ rest

def attItem (a : JVal) : JsE String :=
  match a with
  | .null => .error ()
  | _ =>
    let nm := jOrO (getTot a "file_name") (jOrO (getTot a "name") (.str "file"))
    let ty := jOrO (getTot a "file_type") (jOrO (getTot a "content_type") (.str "unknown"))
    .ok ("- " ++ jsToString nm ++ " (" ++ jsToString ty ++ ")")

def attLoop : JArr → JsE (List String)
  | .nil => .ok []
  | .cons a tl =>
    (attItem a).bind fun s => (attLoop tl).map fun rest => s :: rest

/-- `if (msg.attachments?.length) \x7b ... \x7d` with `for..of`. -/
def attachmentLines (attV : Option JVal) : JsE (List String) :=
  match attV with
  | none => .ok []
  | some .null => .ok []
  | some (.arr xs) =>
    if JArr.length xs == 0 then .ok []
    else (attLoop xs).map fun ls => "" :: "**Attachments:**" :: ls
  | some (.str s) =>
    if s.length == 0 then .ok []
    else .ok ("" :: "**Attachments:**" :: s.data.map (fun _ => "- file (unknown)"))
  | some (.obj fs) =>
    if jsTruthyOpt (lookupO fs "length") then .error () else .ok []
  | some (.num _) => .ok []
  | some (.bool _) => .ok []

def formatMessage (msg : JVal) : JsE String :=
  (propGet msg "sender").bind fun senderP =>
    let sender := jOrO senderP (.str "unknown")
    let label := if strictEqStr sender "human" then "Human" else "Assistant"
    (propGet msg "content").bind fun contentV =>
      ((match contentV with
        | some (.str s) => .ok [s]
        | some (.arr xs) => blockLinesLoop xs
        | _ =>
          (propGet msg "text").map fun tV =>
            if jsTruthyOpt tV then [jsToStringU tV] else [] : JsE (List String))).bind
        fun bodyLines =>
        (propGet msg "attachments").bind fun attV =>
          (attachmentLines attV).map fun attLs =>
            joinStr "\n" ((["## " ++ label, ""] ++ bodyLines) ++ attLs)

/-- The `meta` options object passed by the popup: both fields may be
absent (modelled by falsy `JVal.null`). -/
structure ExportMeta : Type where
  conversationId : JVal
  name : JVal

/-- `data?.chat_messages || []`. -/
def chatMessagesVal (data : JVal) : JVal :=
  match data with
  | .null => .arr .nil
  | _ => jOrO (getTot data "chat_messages") (.arr .nil)

def msgLoop : List JVal → JsE (List String)
  | [] => .ok []
  | m :: tl =>
    (formatMessage m).bind fun f =>
      (msgLoop tl).map fun rest =>
        (if f = "" then [] else [f, "", "---", ""]) ++ rest

def formatConversation (data : JVal) (meta : ExportMeta) (now : String) : JsE String :=
  let messages := chatMessagesVal data
  if !(jsTruthyOpt (lenOf messages)) then .ok "<!-- No messages found in capture -->"
  else
    (iterOf messages).bind fun msgs =>
      (msgLoop msgs).map fun body =>
        joinStr "\n"
          (["<!-- float-export v0.1 -->",
            "<!-- conversation: " ++
              jsToString (jOrO (getTot data "uuid")
                (jOrV meta.conversationId (.str "unknown"))) ++ " -->",
            "<!-- exported: " ++ now ++ " -->",
            "<!-- model: " ++
              jsToString (jOrO (getTot data "model") (.str "unknown")) ++ " -->",
            "<!-- messages: " ++ jsToStringU (lenOf messages) ++ " -->",
            "",
            "# " ++ jsToString (jOrO (getTot data "name")
              (jOrV meta.name (.str "Claude Conversation"))),
            ""] ++ body)

/-! ## Outliner vocabulary -/

def epItem (b : JVal) : JsE (Option String) :=
  match b with
  | .null => .error ()
  | .obj fs =>
    match lookupO fs "type" with
    | some (.str "text") => .ok (some (jsToString (jOrO (lookupO fs "text") (.str ""))))
    | _ => .ok none
  | _ => .ok none

def epLoop : JArr → JsE (List String)
  | .nil => .ok []
  | .cons b tl =>
    (epItem b).bind fun s =>
      (epLoop tl).map fun rest =>
        (match s with
         | some t => [t]
         | none => []) ++ rest

/-- `extractPlainText(content)`: text blocks joined by newlines. -/
def extractPlainText (content : Option JVal) : JsE String :=
  match content with
  | some (.str s) => .ok s
  | some (.arr xs) => (epLoop xs).map fun ls => joinStr "\n" ls
  | _ => .ok ""

def etrItem (c : JVal) : JsE String :=
  match c with
  | .str s => .ok s
  | .null => .error ()
  | .obj fs =>
    (match lookupO fs "type" with
     | some (.str "text") => .ok (jsToString (jOrO (lookupO fs "text") (.str "")))
     | some (.str "image") => .ok "[image]"
     | _ => .ok (stringifyC (.obj fs)))
  | v => .ok (stringifyC v)

def etrLoop : JArr → JsE (List String)
  | .nil => .ok []
  | .cons c tl =>
    (etrItem c).bind fun s => (etrLoop tl).map fun rest => s :: rest

/-- `extractToolResultText(content)`; `.ok none` models `undefined` from
`JSON.stringify(undefined, null, 2)`. -/
def extractToolResultText (content : Option JVal) : JsE (Option String) :=
  match content with
  | some (.str s) => .ok (some s)
  | some (.arr xs) => (etrLoop xs).map fun ls => some (joinStr "\n" ls)
  | some v => .ok (some (stringifyP v 0))
  | none => .ok none

/-- `v.slice(0, n)` on a value: strings and arrays have `slice`,
everything else throws. -/
def sliceVal (v : Option JVal) (n : Nat) : JsE String :=
  match v with
  | some (.str s) => .ok (takeChars n s)
  | some (.arr xs) => .ok (jsToString (.arr (JArr.take n xs)))
  | _ => .error ()

/-- `v.split("\n")[0].slice(0, 80)` on a value: only strings have
`split`. -/
def splitHeadSlice (v : Option JVal) (n : Nat) : JsE String :=
  match v with
  | some (.str s) => .ok (takeChars n (headD (jsSplitNl s)))
  | _ => .error ()

/-- `toolCallSummary(name, input)` — the `name` parameter is unused in the
source as well. -/
def toolCallSummary (input : JVal) : JsE String :=
  let g := fun k => getTot input k
  if jsTruthyOpt (g "file_path") then .ok ("→ " ++ jsToStringU (g "file_path"))
  else if jsTruthyOpt (g "path") then .ok ("→ " ++ jsToStringU (g "path"))
  else if jsTruthyOpt (g "command") then
    (splitHeadSlice (g "command") 80).map fun s => "→ " ++ s
  else if jsTruthyOpt (g "pattern") then .ok ("→ " ++ jsToStringU (g "pattern"))
  else if jsTruthyOpt (g "query") then
    (sliceVal (g "query") 80).map fun s => "→ " ++ s
  else if jsTruthyOpt (g "url") then
    (sliceVal (g "url") 80).map fun s => "→ " ++ s
  else if jsTruthyOpt (g "skill") then .ok ("→ " ++ jsToStringU (g "skill"))
  else if jsTruthyOpt (g "title") then
    (sliceVal (g "title") 80).map fun s => "→ " ++ s
  else .ok ""

/-- Rendering of one tool-input field in the outliner nesting. -/
def outlinerInputField (kv : String × JVal) : List String :=
  match kv.2 with
  | .str s =>
    if hasNl s then
      ("    " ++ kv.1 ++ "::") :: (jsSplitNl s).map (fun l => "      " ++ l)
    else if decide (s.length > 120) then
      ["    " ++ kv.1 ++ ":: " ++ takeChars 120 s ++ "..."]
    else ["    " ++ kv.1 ++ ":: " ++ s]
  | .arr xs => ["    " ++ kv.1 ++ ":: " ++ stringifyC (.arr xs)]
  | .obj fs => ["    " ++ kv.1 ++ ":: " ++ stringifyC (.obj fs)]
  | v => ["    " ++ kv.1 ++ ":: " ++ jsToString v]

def outlinerToolUse (block : JVal) : JsE (List String) :=
  (propGet block "name").bind fun nameP =>
    (propGet block "input").bind fun inputP =>
      let nameV := jOrO nameP (.str "unknown")
      let inputV := jOrO inputP (.obj .nil)
      (toolCallSummary inputV).map fun summary =>
        ("  tool:: " ++ jsToString nameV ++ " " ++ summary) ::
          ((entriesOf inputV).map outlinerInputField).flatten

def outlinerToolResult (block : JVal) : JsE (List String) :=
  (propGet block "name").bind fun nameP =>
    (propGet block "is_error").bind fun errP =>
      (propGet block "content").bind fun contentP =>
        let nameV := jOrO nameP (.str "")
        let isError := jsTruthyOpt errP
        let nmPart := if jsTruthy nameV then " " ++ jsToString nameV else ""
        let label := if isError then "result:: ERROR" ++ nmPart else "result::" ++ nmPart
        (extractToolResultText contentP).bind fun bodyO =>
          match bodyO with
          | none => .error ()
          | some body0 =>
            let body := unwrapToolOutput body0
            let parts := jsSplitNl body
            .ok (("    " ++ label ++ " " ++ takeChars 120 (headD parts)) ::
              (parts.drop 1).map (fun l => "      " ++ l))

def outlinerThinking (block : JVal) : JsE (Option (List String)) :=
  (propGet block "thinking").bind fun thinkP =>
    let textV := jOrO thinkP (.str "")
    match textV with
    | .str s =>
      if jsTrim s = "" then .ok none
      else
        (propGet block "summaries").bind fun sv =>
          (summariesJoined sv).map fun sj =>
            some ((("  thinking:: " ++ takeChars 80 (headD (jsSplitNl s)) ++
                (if hasNl s then "..." else "")) ::
              (jsSplitNl s).map (fun l => "    " ++ l)) ++
              (match sj with
               | some j => ["    summary:: " ++ j]
               | none => []))
    | _ => .error ()

/-- `outlinerText`: omitted when blank; a truthy non-string `block.text`
throws (`text.trim` is not a function). -/
def outlinerText (block : JVal) : JsE (Option (List String)) :=
  (propGet block "text").bind fun textP =>
    let textV := jOrO textP (.str "")
    match textV with
    | .str s =>
      if jsTrim s = "" then .ok none
      else .ok (some ((jsSplitNl s).map (fun l => "  " ++ l)))
    | _ => .error ()

/-- `outlinerBlock`: `.ok none` models the JavaScript `null` return. -/
def outlinerBlock (block : JVal) : JsE (Option (List String)) :=
  match block with
  | .str s => .ok (some ((jsSplitNl s).map (fun l => "  " ++ l)))
  | _ =>
    (propGet block "type").bind fun tV =>
      match tV with
      | some (.str "text") => outlinerText block
      | some (.str "tool_use") => (outlinerToolUse block).map some
      | some (.str "tool_result") => (outlinerToolResult block).map some
      | some (.str "thinking") => outlinerThinking block
      | some (.str "token_budget") => .ok none
      | _ => .ok (some ["  unknown:: " ++ jsToStringU tV])

def outlinerBlocksLoop : JArr → JsE (List String)
  | .nil => .ok []
  | .cons b tl =>
    (outlinerBlock b).bind fun obl =>
      (outlinerBlocksLoop tl).map fun rest =>
        (match obl with
         | some ls => ls
         | none => []) ++ rest

def outsAttItem (a : JVal) : JsE String :=
  match a with
  | .null => .error ()
  | _ =>
    let nm := jOrO (getTot a "file_name") (jOrO (getTot a "name") (.str "file"))
    let ty := jOrO (getTot a "file_type") (.str "unknown")
    .ok ("  attachment:: " ++ jsToString nm ++ " (" ++ jsToString ty ++ ")")

def outsAttLoop : JArr → JsE (List String)
  | .nil => .ok []
  | .cons a tl =>
    (outsAttItem a).bind fun s => (outsAttLoop tl).map fun rest => s :: rest

def outsAttachments (attV : Option JVal) : JsE (List String) :=
  match attV with
  | none => .ok []
  | some .null => .ok []
  | some (.arr xs) =>
    if JArr.length xs == 0 then .ok [] else outsAttLoop xs
  | some (.str s) =>
    if s.length == 0 then .ok []
    else .ok (s.data.map (fun _ => "  attachment:: file (unknown)"))
  | some (.obj fs) =>
    if jsTruthyOpt (lookupO fs "length") then .error () else .ok []
  | some (.num _) => .ok []
  | some (.bool _) => .ok []

def outlinerMessage (msg : JVal) : JsE (List String) :=
  (propGet msg "sender").bind fun senderP =>
    let sender := jOrO senderP (.str "unknown")
    (propGet msg "content").bind fun contentV =>
      if strictEqStr sender "human" || strictEqStr sender "user" then
        (extractPlainText contentV).bind fun ep =>
          (propGet msg "text").bind fun textP =>
            let textV := jOrV (.str ep) (jOrO textP (.str ""))
            (asStringOrThrow textV).bind fun text =>
              let parts := jsSplitNl text
              let firstLine := takeChars 120 (headD parts)
              let rest := jsTrim (joinStr "\n" (parts.drop 1))
              let restLines :=
                if rest = "" then []
                else (jsSplitNl rest).map (fun l => "  " ++ l)
              (propGet msg "attachments").bind fun attV =>
                (outsAttachments attV).map fun attLs =>
                  (("user:: " ++ firstLine) :: restLines) ++ attLs
      else
        ((match contentV with
          | some (.str s) => .ok ((jsSplitNl s).map (fun l => "  " ++ l))
          | some (.arr xs) => outlinerBlocksLoop xs
          | _ =>
            (propGet msg "text").bind fun tV =>
              if jsTruthyOpt tV then
                (asStringOrThrow (jOrO tV .null)).map fun t =>
                  (jsSplitNl t).map (fun l => "  " ++ l)
              else .ok [] : JsE (List String))).map
          fun bodyLs => "response::" :: bodyLs

def outlinerLoop : List JVal → JsE (List String)
  | [] => .ok []
  | m :: tl =>
    (outlinerMessage m).bind fun bls =>
      (outlinerLoop tl).map fun rest => ("" :: bls) ++ rest

def formatForOutliner (data : JVal) (meta : ExportMeta) (now : String) : JsE String :=
  let messages := chatMessagesVal data
  if !(jsTruthyOpt (lenOf messages)) then .ok "export:: empty conversation"
  else
    (iterOf messages).bind fun msgs =>
      (outlinerLoop msgs).map fun body =>
        joinStr "\n"
          (["export:: " ++ jsToString (jOrO (getTot data "name")
              (jOrV meta.name (.str "Claude Conversation"))),
            "  model:: " ++ jsToString (jOrO (getTot data "model") (.str "unknown")),
            "  messages:: " ++ jsToStringU (lenOf messages),
            "  exported:: " ++ now,
            "  id:: " ++ jsToString (jOrO (getTot data "uuid")
              (jOrV meta.conversationId (.str "unknown")))] ++ body)

/-! ## Concrete inputs used by the theorems below -/

def emptyMeta : ExportMeta := ⟨.null, .null⟩

/-- A capture with one assistant message whose content array contains a
`null` element. -/
def nullBlockConv : JVal :=
  .obj (.cons "chat_messages"
    (.arr (.cons
      (.obj (.cons "sender" (.str "assistant")
        (.cons "content" (.arr (.cons .null .nil)) .nil))) .nil)) .nil)

/-- A `thinking` block with the given text payload. -/
def thinkBlockOf (s : String) : JVal :=
  .obj (.cons "type" (.str "thinking") (.cons "thinking" (.str s) .nil))

/-- The `tool_use` block of the worked example in the specification. -/
def writeToolBlock : JVal :=
  .obj (.cons "type" (.str "tool_use")
    (.cons "name" (.str "Write")
      (.cons "input"
        (.obj (.cons "file_path" (.str "/tmp/x.py")
          (.cons "content" (.str "line1\nline2") .nil))) .nil)))

/-- A `tool_result` block whose body is the JSON text of the worked
example (the escape `\n` inside the JSON makes the parsed `b` multiline). -/
def yamlResultBlock : JVal :=
  .obj (.cons "type" (.str "tool_result")
    (.cons "content" (.str "\x7b\"a\":1,\"b\":\"x\\ny\"\x7d") .nil))

/-- A `tool_result` block whose body parses as an array containing an
empty object. -/
def emptyObjArrayResultBlock : JVal :=
  .obj (.cons "type" (.str "tool_result")
    (.cons "content" (.str "[\x7b\x7d]") .nil))

/-- A message whose sender is the given value and whose content is the
string "hi". -/
def senderMsgOf (sv : JVal) : JVal :=
  .obj (.cons "sender" sv (.cons "content" (.str "hi") .nil))

/-! ## Helper lemmas -/

theorem truncate_zero (s : String) : truncate s 0 = s := by
  simp [truncate]

@[simp] theorem jsE_bind_ok {α β : Type} (a : α) (f : α → JsE β) :
    (Except.ok a : JsE α).bind f = f a := rfl

@[simp] theorem jsE_bind_err {α β : Type} (f : α → JsE β) :
    (Except.error () : JsE α).bind f = .error () := rfl

@[simp] theorem jsE_map_ok {α β : Type} (a : α) (f : α → β) :
    Except.map f (Except.ok a : JsE α) = .ok (f a) := rfl

@[simp] theorem jsE_map_err {α β : Type} (f : α → β) :
    Except.map f (Except.error () : JsE α) = .error () := rfl

theorem toList_ofList (l : List (String × JVal)) : JObj.toList (JObj.ofList l) = l := by
  induction l with
  | nil => rfl
  | cons kv tl ih =>
    obtain ⟨k, v⟩ := kv
    simp [JObj.ofList, JObj.toList, ih]

theorem jOrO_str_empty_dflt (s : String) : jOrO (some (.str s)) (.str "") = .str s := by
  by_cases h : s = "" <;> simp [jOrO, jsTruthy, h]

theorem exit_str_ne_empty (x : String) : (" (exit " ++ x ++ ")") ≠ "" := by
  intro h
  have h1 := congrArg String.length h
  rw [String.length_append, String.length_append] at h1
  have h2 : String.length " (exit " = 7 := rfl
  have h3 : String.length ")" = 1 := rfl
  have h4 : String.length "" = 0 := rfl
  omega

theorem exit_wrap (u : String) :
    "\n\n_" ++ (" (exit " ++ u ++ ")") ++ "_" = "\n\n_ (exit " ++ u ++ ")_" := by
  rw [String.ext_iff]
  simp [String.data_append, List.append_assoc]

/-- Reduction of `unwrapToolOutput` once the parse of the trimmed body is
known. -/
theorem unwrap_reduces (s : String) (parsed : JVal)
    (hb : startsWithChar (jsTrim s) '\x7b' = true)
    (hp : jsonParse (jsTrim s) = some parsed) :
    unwrapToolOutput s =
      (match unwrapParsed parsed with
       | .ok (some r) => r
       | .ok none => s
       | .error _ => s) := by
  unfold unwrapToolOutput
  simp [hb, hp]

/-- The single-value-key loop returns the first listed key holding a
string, and only when the object has at most 3 keys. -/
theorem findSingleKeyLoop_eq (fs : JObj) (ks : List String) :
    findSingleKeyLoop fs ks =
      if numKeysO fs ≤ 3 then
        (ks.filterMap (fun k =>
          match lookupO fs k with
          | some (.str v) => some v
          | _ => none)).head?
      else none := by
  induction ks with
  | nil => simp [findSingleKeyLoop]
  | cons k tl ih =>
    by_cases h3 : numKeysO fs ≤ 3
    · cases hl : lookupO fs k with
      | none => simp [findSingleKeyLoop, hl, h3, ih, List.filterMap_cons]
      | some v => cases v <;> simp [findSingleKeyLoop, hl, h3, ih, List.filterMap_cons]
    · cases hl : lookupO fs k with
      | none => simp [findSingleKeyLoop, hl, h3, ih, List.filterMap_cons]
      | some v => cases v <;> simp [findSingleKeyLoop, hl, h3, ih, List.filterMap_cons]

/-- Normalising the sender with `|| "unknown"` does not change the
`=== "human"` test. -/
theorem senderNorm_human (sv : JVal) :
    strictEqStr (jOrO (some sv) (.str "unknown")) "human" = strictEqStr sv "human" := by
  cases sv with
  | null => rfl
  | bool b => cases b <;> rfl
  | num n => by_cases h : n = 0 <;> simp [jOrO, jsTruthy, strictEqStr, h]
  | str s => by_cases h : s = "" <;> simp [jOrO, jsTruthy, strictEqStr, h]
  | arr xs => rfl
  | obj fs => rfl

theorem senderNorm_user (sv : JVal) :
    strictEqStr (jOrO (some sv) (.str "unknown")) "user" = strictEqStr sv "user" := by
  cases sv with
  | null => rfl
  | bool b => cases b <;> rfl
  | num n => by_cases h : n = 0 <;> simp [jOrO, jsTruthy, strictEqStr, h]
  | str s => by_cases h : s = "" <;> simp [jOrO, jsTruthy, strictEqStr, h]
  | arr xs => rfl
  | obj fs => rfl

/-! ## Claim theorems -/

/-- Claim C1 states that `formatConversation` and `formatForOutliner`
return a string and never raise for every JSON-shaped input, including
content arrays containing `null`.  The code violates this: `formatBlock`
and `outlinerBlock` evaluate `block.type` on the `null` element, a
`TypeError`, so both formatters throw on this capture. -/
theorem throwOnNullBlock :
    formatConversation nullBlockConv emptyMeta "2026-01-01T00:00:00Z" = .error () ∧
    formatForOutliner nullBlockConv emptyMeta "2026-01-01T00:00:00Z" = .error () :=
  ⟨rfl, rfl⟩

/-- Claim C2: a conversation whose `chat_messages` list is empty or
absent makes the flat formatter return exactly the sentinel comment and
the outliner formatter return exactly `export:: empty conversation`. -/
theorem emptyConversationSentinels (data : JVal) (meta : ExportMeta) (now : String)
    (h : chatMessagesVal data = .arr .nil) :
    formatConversation data meta now = .ok "<!-- No messages found in capture -->" ∧
    formatForOutliner data meta now = .ok "export:: empty conversation" := by
  constructor
  · simp [formatConversation, h, lenOf, JArr.length, jsTruthyOpt, jsTruthy]
  · simp [formatForOutliner, h, lenOf, JArr.length, jsTruthyOpt, jsTruthy]

/-- Witness for C2 at a capture with no `chat_messages` field. -/
theorem emptyConversationSentinelsWitness :
    formatConversation (.obj .nil) emptyMeta "2026-01-01T00:00:00Z" =
      .ok "<!-- No messages found in capture -->" ∧
    formatForOutliner (.obj .nil) emptyMeta "2026-01-01T00:00:00Z" =
      .ok "export:: empty conversation" :=
  emptyConversationSentinels (.obj .nil) emptyMeta "2026-01-01T00:00:00Z" rfl

/-- Claim C7: the structured-data renderer renders a multiline string as
a `|` block scalar with each line indented two spaces past the current
level and no escaping; a non-empty string with no leading or trailing
whitespace and none of the structurally significant characters renders
bare; every other string is JSON-quoted. -/
theorem yamlStringRendering (s : String) (i : Nat) :
    jsonToYaml (.str s) i =
      if hasNl s then
        .ok ("|\n" ++ joinStr "\n" ((jsSplitNl s).map (fun l => pad i ++ "  " ++ l)))
      else if s ≠ "" ∧ jsTrim s = s ∧ hasSpecialChar s = false then .ok s
      else .ok (jsonQuote s) := by
  by_cases hn : hasNl s
  · simp [jsonToYaml, hn]
  · by_cases he : s = ""
    · subst he
      simp [jsonToYaml, hn]
    · by_cases ht : jsTrim s = s
      · by_cases hs : hasSpecialChar s
        · simp [jsonToYaml, hn, he, ht, hs]
        · simp [jsonToYaml, hn, he, ht, hs]
      · have ht2 : ¬(s == jsTrim s) = true := by
          simp only [beq_iff_eq]
          intro hx
          exact ht hx.symm
        simp [jsonToYaml, hn, he, ht, ht2]

/-- Counterexample to claim C8 as stated: the truncation marker appended
by `truncate` is `"\n... (truncated)"`, with a leading newline, so the
output is not the first `N` characters followed directly by
`"... (truncated)"`. -/
theorem truncateSuffixCounterexample :
    truncate "abcd" 2 = "ab\n... (truncated)" ∧
    truncate "abcd" 2 ≠ "ab" ++ "... (truncated)" := by
  refine ⟨rfl, ?_⟩
  decide

/-- Claim C8 (amended): for a positive limit `N` and a string strictly
longer than `N`, `truncate` returns the first `N` characters (a prefix of
length exactly `N`) followed by a newline and the fixed
`"... (truncated)"` marker; a limit of `0`, or a string of length at most
`N`, is returned unchanged. -/
theorem truncateSpec (s : String) (N : Nat) :
    (0 < N → N < s.length →
      truncate s N = takeChars N s ++ "\n... (truncated)" ∧ (takeChars N s).length = N) ∧
    (s.length ≤ N → truncate s N = s) ∧
    truncate s 0 = s := by
  refine ⟨?_, ?_, truncate_zero s⟩
  · intro h1 h2
    have hne : s ≠ "" := by
      intro h
      subst h
      have h0 : String.length "" = 0 := rfl
      omega
    have hN : (N == 0) = false := by
      simp
      omega
    constructor
    · have hle : ¬ s.length ≤ N := by omega
      simp [truncate, hne, hN, hle]
    · show (s.data.take N).length = N
      have h3 : N < s.data.length := h2
      rw [List.length_take]
      omega
  · intro h
    by_cases hz : N = 0
    · subst hz
      exact truncate_zero s
    · simp [truncate, h]

/-- Witness for C8 at `s = "abcd"`, `N = 2`. -/
theorem truncateSpecWitness :
    truncate "abcd" 2 = takeChars 2 "abcd" ++ "\n... (truncated)" ∧
    (takeChars 2 "abcd").length = 2 :=
  (truncateSpec "abcd" 2).1 (by decide) (by decide)

/-- Claim C10: the flat formatter suppresses a `thinking` block only when
its text is exactly the empty string, so a whitespace-only payload still
produces a collapsible details block; the outliner formatter suppresses
every `thinking` block that is blank after trimming — the two vocabularies
disagree on whitespace-only text. -/
theorem thinkingWhitespace (s : String) :
    (formatThinking (thinkBlockOf s) = .ok none ↔ s = "") ∧
    (jsTrim s = "" → outlinerThinking (thinkBlockOf s) = .ok none) ∧
    (s ≠ "" → formatThinking (thinkBlockOf s) =
      .ok (some (.str ("<details>\n<summary>Thinking</summary>\n\n" ++ s ++
        "\n\n</details>")))) := by
  refine ⟨?_, ?_, ?_⟩
  · constructor
    · intro h
      by_contra hne
      simp [formatThinking, thinkBlockOf, propGet, lookupO, jOrO_str_empty_dflt,
        jsTruthy, hne, summariesJoined, truncate_zero, LIMITS, jsToString] at h
    · intro h
      subst h
      simp [formatThinking, thinkBlockOf, propGet, lookupO, jOrO_str_empty_dflt, jsTruthy]
  · intro h
    by_cases hne : s = ""
    · subst hne
      rfl
    · simp [outlinerThinking, thinkBlockOf, propGet, lookupO, jOrO_str_empty_dflt, h]
  · intro hne
    simp [formatThinking, thinkBlockOf, propGet, lookupO, jOrO_str_empty_dflt,
      jsTruthy, jsTruthyOpt, hne, summariesJoined, truncate_zero, LIMITS, jsToString]

/-- Witness for C10 at the whitespace-only payload `" "`: the flat
formatter still emits a details block while the outliner suppresses the
block. -/
theorem thinkingWhitespaceWitness :
    formatThinking (thinkBlockOf " ") =
      .ok (some (.str "<details>\n<summary>Thinking</summary>\n\n \n\n</details>")) ∧
    outlinerThinking (thinkBlockOf " ") = .ok none :=
  ⟨(thinkingWhitespace " ").2.2 (by decide), (thinkingWhitespace " ").2.1 rfl⟩

/-- Counterexample to claim C3 as stated: the body `[\x7b\x7d]` parses as
JSON, yet the rendering is a json-tagged fence, not a yaml-tagged one —
the structured-data renderer throws on an array containing an empty
object and the `catch` falls back to the json fence. -/
theorem yamlClaimCounterexample :
    jsonParse (jsTrim "[\x7b\x7d]") = some (.arr (.cons (.obj .nil) .nil)) ∧
    formatToolResult emptyObjArrayResultBlock =
      .ok "### Tool Result\n\n```json\n[\x7b\x7d]\n```" :=
  ⟨rfl, rfl⟩

/-- Claim C3 (amended): after normalisation and unwrapping, a body whose
trimmed form starts with a brace or bracket renders as a yaml-tagged
fence containing the structured-data renderer's output when the JSON
parse succeeds and the renderer does not throw; when the parse or the
renderer fails it renders as a json-tagged fence around the raw body.
Other bodies render in a plain fence when single-line under 200
characters or when the error flag is set, and as raw markdown otherwise.
The worked example body renders key `b` as a block scalar inside the
yaml fence. -/
theorem toolResultClassification (pfx : String) (isError : Bool) (body : String) :
    ((startsWithChar (jsTrim body) '\x7b' || startsWithChar (jsTrim body) '[') = true →
      classifyToolResultBody pfx isError body =
        (match jsonParse (jsTrim body) with
         | some v =>
           (match jsonToYaml v 0 with
            | .ok y => "### " ++ pfx ++ "\n\n```yaml\n" ++ y ++ "\n```"
            | .error _ => "### " ++ pfx ++ "\n\n```json\n" ++ body ++ "\n```")
         | none => "### " ++ pfx ++ "\n\n```json\n" ++ body ++ "\n```")) ∧
    ((startsWithChar (jsTrim body) '\x7b' || startsWithChar (jsTrim body) '[') = false →
      classifyToolResultBody pfx isError body =
        (if (!(hasNl (jsTrim body)) && decide ((jsTrim body).length < 200)) || isError then
          "### " ++ pfx ++ "\n\n```\n" ++ body ++ "\n```"
         else "### " ++ pfx ++ "\n\n" ++ body)) ∧
    formatToolResult yamlResultBlock =
      .ok "### Tool Result\n\n```yaml\na: 1\nb: |\n    x\n    y\n```" := by
  refine ⟨?_, ?_, rfl⟩
  · intro h
    simp [classifyToolResultBody, h, truncate_zero, LIMITS]
  · intro h
    simp [classifyToolResultBody, h, truncate_zero, LIMITS]

/-- Witness for C3 at a single-line prose body: the plain-fence branch. -/
theorem toolResultClassificationWitness :
    classifyToolResultBody "Tool Result" false "hello world" =
      "### Tool Result\n\n```\nhello world\n```" := by
  have h := (toolResultClassification "Tool Result" false "hello world").2.1 rfl
  exact h.trans (by decide)

/-- Counterexample to claim C4 as stated: on an object with both
`stdout` and `returncode` where stdout and stderr trim to empty, the
unwrapper does not return the original string unchanged — it falls
through to the single-value-key check and unwraps the `text` field. -/
theorem unwrapEmptyStdoutCounterexample :
    unwrapToolOutput "\x7b\"stdout\":\"\",\"returncode\":0,\"text\":\"hi\"\x7d" = "hi" ∧
    ("hi" : String) ≠ "\x7b\"stdout\":\"\",\"returncode\":0,\"text\":\"hi\"\x7d" := by
  refine ⟨rfl, ?_⟩
  decide

/-- Claim C4 (amended): for an input whose trimmed form parses as a JSON
object with both `stdout` and `returncode` fields (each a string, null,
or absent, so that `?.trim()` does not throw): when at least one of the
trimmed stdout/stderr parts is non-empty, the result is the parts joined
by blank lines, the stderr part carrying a `**stderr:**` label, followed
by an `_ (exit N)_` annotation exactly when `returncode` is not the
number 0; when both parts are empty the unwrapper falls through to the
single-value-key check and only returns the original string if that also
fails.  The worked example yields exactly `hello`, and any input whose
trimmed form fails to parse is returned unchanged (`unwrapToolOutput` is
total, so it never throws). -/
theorem unwrapStdoutReturncode (s : String) (fs : JObj) (so se : Option String)
    (hb : startsWithChar (jsTrim s) '\x7b' = true)
    (hp : jsonParse (jsTrim s) = some (.obj fs))
    (h1 : hasKeyO fs "stdout" = true)
    (h2 : hasKeyO fs "returncode" = true)
    (hso : jsOptTrim (lookupO fs "stdout") = .ok so)
    (hse : jsOptTrim (lookupO fs "stderr") = .ok se) :
    (trimParts so se ≠ [] →
      unwrapToolOutput s = joinStr "\n\n" (trimParts so se) ++
        (if rcIsZero (lookupO fs "returncode") then ""
         else "\n\n_ (exit " ++ jsToStringU (lookupO fs "returncode") ++ ")_")) ∧
    (trimParts so se = [] →
      unwrapToolOutput s =
        (match findSingleKeyLoop fs singleKeys with
         | some v => v
         | none => s)) ∧
    unwrapToolOutput "\x7b\"returncode\":0,\"stdout\":\"hello\\n\",\"stderr\":\"\"\x7d" =
      "hello" ∧
    (∀ t : String, jsonParse (jsTrim t) = none → unwrapToolOutput t = t) := by
  rw [unwrap_reduces s (.obj fs) hb hp]
  have hup : unwrapParsed (.obj fs) =
      (if (trimParts so se).isEmpty then .ok (findSingleKeyLoop fs singleKeys)
       else
         let rc := exitAnnot (lookupO fs "returncode")
         .ok (some (joinStr "\n\n" (trimParts so se) ++
           (if rc = "" then "" else "\n\n_" ++ rc ++ "_")))) := by
    simp [unwrapParsed, h1, h2, hso, hse]
  refine ⟨?_, ?_, rfl, ?_⟩
  · intro hne
    cases hl : trimParts so se with
    | nil => exact absurd hl hne
    | cons a tl =>
      rw [hl] at hup
      simp only [List.isEmpty_cons, if_neg] at hup
      rw [hup]
      by_cases hrc : rcIsZero (lookupO fs "returncode")
      · simp [exitAnnot, hrc, hl]
      · simp [exitAnnot, hrc, hl, exit_str_ne_empty, exit_wrap]
  · intro hz
    rw [hz] at hup
    simp only [List.isEmpty_nil, if_pos] at hup
    rw [hup]
    cases hf : findSingleKeyLoop fs singleKeys <;> simp
  · intro t ht
    unfold unwrapToolOutput
    by_cases hs : startsWithChar (jsTrim t) '\x7b'
    · simp [hs, ht]
    · simp [hs]

/-- Witness for C4 at the worked shell-output example. -/
theorem unwrapStdoutReturncodeWitness :
    unwrapToolOutput "\x7b\"returncode\":0,\"stdout\":\"hello\\n\",\"stderr\":\"\"\x7d" =
      "hello" := by
  have h := (unwrapStdoutReturncode
    "\x7b\"returncode\":0,\"stdout\":\"hello\\n\",\"stderr\":\"\"\x7d"
    (JObj.ofList [("returncode", .num 0), ("stdout", .str "hello\n"), ("stderr", .str "")])
    (some "hello") (some "") rfl rfl rfl rfl rfl rfl).1 (by decide)
  exact h.trans (by decide)

/-- Counterexample to claim C5 as stated: an object in which two of the
fixed keys hold strings is not returned unchanged — the first key in the
fixed order wins. -/
theorem unwrapFirstSingleKeyCounterexample :
    unwrapToolOutput "\x7b\"output\":\"a\",\"result\":\"b\"\x7d" = "a" ∧
    ("a" : String) ≠ "\x7b\"output\":\"a\",\"result\":\"b\"\x7d" := by
  refine ⟨rfl, ?_⟩
  decide

/-- Claim C5 (amended): for an input whose trimmed form parses as a JSON
object without the stdout/returncode pair, the unwrapper returns the
value of the first key (in the fixed order output, result, text, content,
message, data) holding a string, provided the object has at most 3 keys
in total; with more than 3 keys, or when no such key holds a string, the
original string is returned unchanged. -/
theorem unwrapSingleValue (s : String) (fs : JObj)
    (hb : startsWithChar (jsTrim s) '\x7b' = true)
    (hp : jsonParse (jsTrim s) = some (.obj fs))
    (hno : (hasKeyO fs "stdout" && hasKeyO fs "returncode") = false) :
    unwrapToolOutput s =
      if numKeysO fs ≤ 3 then
        (match (singleKeys.filterMap (fun k =>
            match lookupO fs k with
            | some (.str v) => some v
            | _ => none)).head? with
         | some v => v
         | none => s)
      else s := by
  rw [unwrap_reduces s (.obj fs) hb hp]
  have hup : unwrapParsed (.obj fs) = .ok (findSingleKeyLoop fs singleKeys) := by
    simp [unwrapParsed, hno]
  rw [hup, findSingleKeyLoop_eq]
  by_cases h3 : numKeysO fs ≤ 3
  · simp only [h3, if_pos]
    cases hf : (singleKeys.filterMap (fun k =>
        match lookupO fs k with
        | some (.str v) => some v
        | _ => none)).head? <;> simp
  · simp [h3]

/-- Witness for C5 at an object with two candidate keys. -/
theorem unwrapSingleValueWitness :
    unwrapToolOutput "\x7b\"output\":\"a\",\"result\":\"b\"\x7d" = "a" := by
  have h := unwrapSingleValue "\x7b\"output\":\"a\",\"result\":\"b\"\x7d"
    (JObj.ofList [("output", .str "a"), ("result", .str "b")]) rfl rfl rfl
  exact h.trans (by decide)

/-- Claim C6: a tool-input field is rich exactly when its name is in the
fixed allow-list and its value is a string containing a newline; the
non-rich fields render together in a single json fence while every rich
field renders as a `**<field>:**` label followed by its raw value; on the
worked example, `content` is rich, `file_path` lands in the metadata
fence, and the outliner summary line is `tool:: Write → /tmp/x.py`. -/
theorem toolUsePartition :
    (∀ (key : String) (val : JVal),
      isRich key val = true ↔
        (key ∈ RICH_CONTENT_FIELDS ∧ ∃ s, val = .str s ∧ hasNl s = true)) ∧
    (∀ (name : String) (fields : List (String × JVal)),
      formatToolUse (.obj (.cons "type" (.str "tool_use") (.cons "name" (.str name)
          (.cons "input" (.obj (JObj.ofList fields)) .nil)))) =
        .ok (joinStr "\n"
          ((["### Tool Use: `" ++ (if name = "" then "unknown_tool" else name) ++ "`", ""] ++
            (if (fields.filter (fun kv => !(isRich kv.1 kv.2))).isEmpty then []
             else ["```json\n" ++ truncate (stringifyP (.obj (JObj.ofList
               (fields.filter (fun kv => !(isRich kv.1 kv.2))))) 0) LIMITS.toolUseMeta ++
               "\n```"])) ++
            ((fields.filter (fun kv => isRich kv.1 kv.2)).map (fun kv =>
              ["", "**" ++ kv.1 ++ ":**", "", jsToString kv.2])).flatten))) ∧
    formatToolUse writeToolBlock =
      .ok "### Tool Use: `Write`\n\n```json\n\x7b\n  \"file_path\": \"/tmp/x.py\"\n\x7d\n```\n\n**content:**\n\nline1\nline2" ∧
    outlinerToolUse writeToolBlock =
      .ok ["  tool:: Write → /tmp/x.py", "    file_path:: /tmp/x.py",
        "    content::", "      line1", "      line2"] := by
  refine ⟨?_, ?_, rfl, rfl⟩
  · intro key val
    cases val <;> simp [isRich]
  · intro name fields
    have ht : entriesOf (.obj (JObj.ofList fields)) = fields := by
      simp [entriesOf, toList_ofList]
    by_cases hn : name = "" <;>
    · simp [formatToolUse, propGet, lookupO, ht, jOrO, jsTruthy,
        hn, truncate_zero, LIMITS, jsToString]
      rw [ht]

/-- Counterexample to claim C9 as stated: a message with sender `user`
is rendered with the `## Assistant` header by the flat formatter but as a
`user::` line by the outliner formatter — the two vocabularies do not
classify the sender the same way. -/
theorem userSenderCounterexample :
    formatMessage (senderMsgOf (.str "user")) = .ok "## Assistant\n\nhi" ∧
    outlinerMessage (senderMsgOf (.str "user")) = .ok ["user:: hi"] ∧
    ("## Assistant\n\nhi" : String) ≠ "## Human\n\nhi" := by
  refine ⟨rfl, rfl, ?_⟩
  decide

/-- Claim C9 (amended): the outliner formatter treats a sender of
`human` or `user` as the human role; the flat formatter renders
`## Human` exactly when the sender is `human`, so it treats `user` (and
every other sender value) as assistant. -/
theorem senderClassification (sv : JVal) :
    formatMessage (senderMsgOf sv) =
      .ok ("## " ++ (if strictEqStr sv "human" then "Human" else "Assistant") ++ "\n\nhi") ∧
    outlinerMessage (senderMsgOf sv) =
      .ok (if strictEqStr sv "human" || strictEqStr sv "user" then ["user:: hi"]
           else ["response::", "  hi"]) := by
  constructor
  · rw [show formatMessage (senderMsgOf sv) = .ok (joinStr "\n"
        ["## " ++ (if strictEqStr (jOrO (some sv) (.str "unknown")) "human" then "Human"
          else "Assistant"), "", "hi"]) from rfl,
      senderNorm_human]
    by_cases h : strictEqStr sv "human" <;> simp [h, joinStr]
  · rw [show outlinerMessage (senderMsgOf sv) =
        (if strictEqStr (jOrO (some sv) (.str "unknown")) "human" ||
            strictEqStr (jOrO (some sv) (.str "unknown")) "user" then
          Except.ok ["user:: hi"]
         else Except.ok ["response::", "  hi"]) from rfl,
      senderNorm_human, senderNorm_user]
    by_cases h : (strictEqStr sv "human" || strictEqStr sv "user") = true <;> simp [h]

end FloatExport
